import Mathlib

/-!
Shallow embedding of the social-service friend-request lifecycle.

The repository ships two near-identical Fastify services over MongoDB:
- the mutual-block variant (`src/src/server.ts`), whose user documents carry a
  `blocked` list and whose request creation / approval are gated by the
  symmetric `isBlocked` predicate;
- the one-sided-avoid variant (`src/unnamed/part_000`), whose user documents
  carry an `avoided` list that is never consulted by request creation and only
  surfaces as the per-viewer `isAvoided` flag of profile projections, and whose
  list endpoints are paginated by `PaginationSchema`.

Each route handler is embedded as a pure function from a `State` (the two
MongoDB collections `users` and `friend_requests`) and the request inputs to a
result paired with the successor state.  MongoDB primitives are modelled as:
`findOne` on an indexed field = `List.find?`; `$addToSet` = append-if-absent;
`$pull` = remove all occurrences; `deleteOne` = remove the first matching
document (the unique compound index on `(fromId, toId)` guarantees at most one
match on reachable states, captured by the `ReqUnique` hypothesis); the unique
index on `publicId` is captured by `UsersUnique`.
-/

/-- Whitespace trimming on the character list of a string, used to embed the
JavaScript `email.trim()`. -/
def trimChars (l : List Char) : List Char :=
  ((l.dropWhile Char.isWhitespace).reverse.dropWhile Char.isWhitespace).reverse

/-- Embedding of `normalizeEmail`: `email.trim().toLowerCase()`. -/
def normalizeEmail (s : String) : String :=
  ⟨(trimChars s.data).map Char.toLower⟩

/-- A `friend_requests` document: `{ fromId, toId, createdAt }`. -/
structure FriendRequest where
  fromId : String
  toId : String
  createdAt : Nat
deriving DecidableEq

/-- The descending `createdAt` order used by `.sort(\x7b createdAt: -1 \x7d)`. -/
def reqGE (a b : FriendRequest) : Prop := b.createdAt ≤ a.createdAt

instance : DecidableRel reqGE := fun a b => Nat.decLe b.createdAt a.createdAt

instance : IsTotal FriendRequest reqGE := ⟨fun a b => Nat.le_total b.createdAt a.createdAt⟩

instance : IsTrans FriendRequest reqGE := ⟨fun _ _ _ hab hbc => Nat.le_trans hbc hab⟩

/-- Sorting a request list by `createdAt` descending. -/
def sortDesc (l : List FriendRequest) : List FriendRequest := l.insertionSort reqGE

/-- The filter `\x7b fromId: f, toId: t \x7d` on the `friend_requests` collection. -/
def isPair (f t : String) (r : FriendRequest) : Bool := r.fromId == f && r.toId == t

/-- MongoDB `$addToSet`: append the value if it is not already present. -/
def addToSet (l : List String) (v : String) : List String :=
  if l.contains v then l else l ++ [v]

/-- MongoDB `$pull`: remove every occurrence of the value. -/
def pullAll (l : List String) (v : String) : List String :=
  l.filter (fun x => x != v)

/-- The unique compound index on `(fromId, toId)`: no two request documents
share both coordinates. -/
def ReqUnique (reqs : List FriendRequest) : Prop :=
  reqs.Pairwise (fun a b => a.fromId ≠ b.fromId ∨ a.toId ≠ b.toId)

instance (reqs : List FriendRequest) : Decidable (ReqUnique reqs) :=
  inferInstanceAs (Decidable (reqs.Pairwise _))

namespace BlockV

/-- A `users` document of the mutual-block variant. -/
structure User where
  email : String
  publicId : String
  dogName : String
  dogPicture : String
  friends : List String
  blocked : List String
  createdAt : Nat
deriving DecidableEq

/-- The two collections that hold all persistent state. -/
structure State where
  users : List User
  requests : List FriendRequest
deriving DecidableEq

/-- Abstract outcome of a mutating route, one constructor per distinct
error answer of the handlers (plus `ok` for the success payload). -/
inductive Outcome
  | unauthorized
  | invalid
  | notFound
  | excluded
  | alreadyFriends
  | duplicate
  | ok
deriving DecidableEq

/-- `users.findOne(\x7b publicId \x7d)`. -/
def findUser (users : List User) (pid : String) : Option User :=
  users.find? (fun u => u.publicId == pid)

/-- `getAuthedUser`: `users.findOne(\x7b email: normalizeEmail(email) \x7d)`. -/
def findUserByEmail (users : List User) (email : String) : Option User :=
  users.find? (fun u => u.email == normalizeEmail email)

/-- `isBlocked(me, other)`: symmetric membership test over both `blocked` lists. -/
def isBlocked (me other : User) : Bool :=
  me.blocked.contains other.publicId || other.blocked.contains me.publicId

/-- `users.updateOne(\x7b publicId \x7d, ...)`: rewrite the matching document. -/
def updateUser (users : List User) (pid : String) (f : User → User) : List User :=
  users.map (fun u => if u.publicId == pid then f u else u)

/-- `$addToSet: \x7b friends: v \x7d`. -/
def addFriend (v : String) (u : User) : User := { u with friends := addToSet u.friends v }

/-- `$pull: \x7b friends: v \x7d`. -/
def pullFriend (v : String) (u : User) : User := { u with friends := pullAll u.friends v }

/-- `$addToSet: \x7b blocked: v \x7d`. -/
def addBlocked (v : String) (u : User) : User := { u with blocked := addToSet u.blocked v }

/-- `$pull: \x7b blocked: v \x7d`. -/
def pullBlocked (v : String) (u : User) : User := { u with blocked := pullAll u.blocked v }

/-- `POST /v1/friends/requests`: send a friend request. -/
def createRequest (s : State) (callerEmail toId : String) (now : Nat) : Outcome × State :=
  match findUserByEmail s.users callerEmail with
  | none => (.unauthorized, s)
  | some me =>
    if toId == me.publicId then (.invalid, s)
    else
      match findUser s.users toId with
      | none => (.notFound, s)
      | some target =>
        if isBlocked me target then (.excluded, s)
        else if me.friends.contains target.publicId then (.alreadyFriends, s)
        else if s.requests.any (isPair me.publicId target.publicId) then (.duplicate, s)
        else (.ok, { s with requests := s.requests ++ [⟨me.publicId, target.publicId, now⟩] })

/-- `GET /v1/friends/requests/incoming`: all requests to the caller, sorted by
`createdAt` descending.  This variant reads no pagination parameters. -/
def listIncoming (s : State) (callerEmail : String) : Option (List FriendRequest) :=
  match findUserByEmail s.users callerEmail with
  | none => none
  | some me => some (sortDesc (s.requests.filter (fun r => r.toId == me.publicId)))

/-- `GET /v1/friends/requests/outgoing`, likewise unpaginated. -/
def listOutgoing (s : State) (callerEmail : String) : Option (List FriendRequest) :=
  match findUserByEmail s.users callerEmail with
  | none => none
  | some me => some (sortDesc (s.requests.filter (fun r => r.fromId == me.publicId)))

/-- `POST /v1/friends/requests/:id/approve`. -/
def approve (s : State) (callerEmail fromId : String) : Outcome × State :=
  match findUserByEmail s.users callerEmail with
  | none => (.unauthorized, s)
  | some me =>
    if fromId == me.publicId then (.invalid, s)
    else if s.requests.any (isPair fromId me.publicId) then
      match findUser s.users fromId with
      | none => (.notFound, s)
      | some other =>
        if isBlocked me other then (.excluded, s)
        else
          (.ok,
            { users :=
                (updateUser (updateUser s.users me.publicId (addFriend other.publicId))
                  other.publicId (addFriend me.publicId)),
              requests :=
                ((s.requests.eraseP (isPair fromId me.publicId)).eraseP
                  (isPair me.publicId fromId)) })
    else (.notFound, s)

/-- `POST /v1/friends/requests/:id/reject`. -/
def reject (s : State) (callerEmail fromId : String) : Outcome × State :=
  match findUserByEmail s.users callerEmail with
  | none => (.unauthorized, s)
  | some me =>
    if s.requests.any (isPair fromId me.publicId) then
      (.ok, { s with requests := s.requests.eraseP (isPair fromId me.publicId) })
    else (.notFound, s)

/-- `DELETE /v1/friends/requests/:id`: cancel a sent request. -/
def cancel (s : State) (callerEmail toId : String) : Outcome × State :=
  match findUserByEmail s.users callerEmail with
  | none => (.unauthorized, s)
  | some me =>
    if s.requests.any (isPair me.publicId toId) then
      (.ok, { s with requests := s.requests.eraseP (isPair me.publicId toId) })
    else (.notFound, s)

/-- `DELETE /v1/friends/:id`: unfriend. -/
def unfriend (s : State) (callerEmail friendId : String) : Outcome × State :=
  match findUserByEmail s.users callerEmail with
  | none => (.unauthorized, s)
  | some me =>
    if friendId == me.publicId then (.invalid, s)
    else
      (.ok,
        { s with users :=
            (updateUser (updateUser s.users me.publicId (pullFriend friendId))
              friendId (pullFriend me.publicId)) })

/-- `POST /v1/blocks`: block a user, drop the friendship both ways and delete
any pending request in either direction. -/
def block (s : State) (callerEmail blockId : String) : Outcome × State :=
  match findUserByEmail s.users callerEmail with
  | none => (.unauthorized, s)
  | some me =>
    if blockId == me.publicId then (.invalid, s)
    else
      match findUser s.users blockId with
      | none => (.notFound, s)
      | some _ =>
        (.ok,
          { users :=
              (updateUser
                (updateUser (updateUser s.users me.publicId (addBlocked blockId))
                  me.publicId (pullFriend blockId))
                blockId (pullFriend me.publicId)),
            requests :=
              ((s.requests.eraseP (isPair me.publicId blockId)).eraseP
                (isPair blockId me.publicId)) })

/-- `DELETE /v1/blocks/:id`: unblock. -/
def unblock (s : State) (callerEmail blockId : String) : Outcome × State :=
  match findUserByEmail s.users callerEmail with
  | none => (.unauthorized, s)
  | some me =>
    (.ok, { s with users := updateUser s.users me.publicId (pullBlocked blockId) })

/-- The `friends` list of the user holding a given `publicId` (empty when absent). -/
def friendsOf (s : State) (pid : String) : List String :=
  ((findUser s.users pid).map User.friends).getD []

/-- The `blocked` list of the user holding a given `publicId` (empty when absent). -/
def blockedOf (s : State) (pid : String) : List String :=
  ((findUser s.users pid).map User.blocked).getD []

/-- The unique index on `publicId`. -/
def UsersUnique (users : List User) : Prop :=
  users.Pairwise (fun u v => u.publicId ≠ v.publicId)

instance (users : List User) : Decidable (UsersUnique users) :=
  inferInstanceAs (Decidable (users.Pairwise _))

/-- Invariant of §3 of the spec: a user's own `publicId` appears in neither its
own `friends` nor its own `blocked` list. -/
def SelfOk (s : State) : Prop :=
  ∀ u ∈ s.users, u.publicId ∉ u.friends ∧ u.publicId ∉ u.blocked

instance (s : State) : Decidable (SelfOk s) :=
  inferInstanceAs (Decidable (∀ u ∈ s.users, _ ∧ _))

end BlockV

namespace AvoidV

/-- A `users` document of the one-sided-avoid variant. -/
structure User where
  email : String
  publicId : String
  dogName : String
  dogPicture : String
  friends : List String
  avoided : List String
  createdAt : Nat
deriving DecidableEq

/-- The two collections that hold all persistent state. -/
structure State where
  users : List User
  requests : List FriendRequest
deriving DecidableEq

/-- Abstract outcome of a mutating route of this variant. -/
inductive Outcome
  | unauthorized
  | invalid
  | notFound
  | alreadyFriends
  | duplicate
  | ok
deriving DecidableEq

/-- `users.findOne(\x7b publicId \x7d)`. -/
def findUser (users : List User) (pid : String) : Option User :=
  users.find? (fun u => u.publicId == pid)

/-- `getAuthedUser`: `users.findOne(\x7b email: normalizeEmail(email) \x7d)`. -/
def findUserByEmail (users : List User) (email : String) : Option User :=
  users.find? (fun u => u.email == normalizeEmail email)

/-- `isAvoided(me, otherId)`: one-sided membership in the caller's own list. -/
def isAvoided (me : User) (otherId : String) : Bool :=
  me.avoided.contains otherId

/-- `users.updateOne(\x7b publicId \x7d, ...)`. -/
def updateUser (users : List User) (pid : String) (f : User → User) : List User :=
  users.map (fun u => if u.publicId == pid then f u else u)

/-- `$addToSet: \x7b friends: v \x7d`. -/
def addFriend (v : String) (u : User) : User := { u with friends := addToSet u.friends v }

/-- `$pull: \x7b friends: v \x7d`. -/
def pullFriend (v : String) (u : User) : User := { u with friends := pullAll u.friends v }

/-- `$addToSet: \x7b avoided: v \x7d`. -/
def addAvoided (v : String) (u : User) : User := { u with avoided := addToSet u.avoided v }

/-- `$pull: \x7b avoided: v \x7d`. -/
def pullAvoided (v : String) (u : User) : User := { u with avoided := pullAll u.avoided v }

/-- `PaginationSchema`: coerced integers, `limit` in 1..200 defaulting to 50,
`offset` at least 0 defaulting to 0; out-of-range values make the parse fail. -/
def parsePagination (lim off : Option Int) : Option (Nat × Nat) :=
  let l := lim.getD 50
  let o := off.getD 0
  if 1 ≤ l && l ≤ 200 && 0 ≤ o then some (l.toNat, o.toNat) else none

/-- `POST /v1/friends/requests` of the avoid variant: no exclusion gate. -/
def createRequest (s : State) (callerEmail toId : String) (now : Nat) : Outcome × State :=
  match findUserByEmail s.users callerEmail with
  | none => (.unauthorized, s)
  | some me =>
    if toId == me.publicId then (.invalid, s)
    else
      match findUser s.users toId with
      | none => (.notFound, s)
      | some target =>
        if me.friends.contains target.publicId then (.alreadyFriends, s)
        else if s.requests.any (isPair me.publicId target.publicId) then (.duplicate, s)
        else (.ok, { s with requests := s.requests ++ [⟨me.publicId, target.publicId, now⟩] })

/-- Result of a paginated listing route. -/
inductive ListRes
  | unauthorized
  | badQuery
  | ok (items : List FriendRequest)
deriving DecidableEq

/-- `GET /v1/friends/requests/incoming` with `skip(offset).limit(limit)`. -/
def listIncoming (s : State) (callerEmail : String) (lim off : Option Int) : ListRes :=
  match findUserByEmail s.users callerEmail with
  | none => .unauthorized
  | some me =>
    match parsePagination lim off with
    | none => .badQuery
    | some (l, o) =>
      .ok (((sortDesc (s.requests.filter (fun r => r.toId == me.publicId))).drop o).take l)

/-- `GET /v1/friends/requests/outgoing` with `skip(offset).limit(limit)`. -/
def listOutgoing (s : State) (callerEmail : String) (lim off : Option Int) : ListRes :=
  match findUserByEmail s.users callerEmail with
  | none => .unauthorized
  | some me =>
    match parsePagination lim off with
    | none => .badQuery
    | some (l, o) =>
      .ok (((sortDesc (s.requests.filter (fun r => r.fromId == me.publicId))).drop o).take l)

/-- `POST /v1/friends/requests/:id/approve` of the avoid variant: no gate. -/
def approve (s : State) (callerEmail fromId : String) : Outcome × State :=
  match findUserByEmail s.users callerEmail with
  | none => (.unauthorized, s)
  | some me =>
    if fromId == me.publicId then (.invalid, s)
    else if s.requests.any (isPair fromId me.publicId) then
      match findUser s.users fromId with
      | none => (.notFound, s)
      | some other =>
        (.ok,
          { users :=
              (updateUser (updateUser s.users me.publicId (addFriend other.publicId))
                other.publicId (addFriend me.publicId)),
            requests :=
              ((s.requests.eraseP (isPair fromId me.publicId)).eraseP
                (isPair me.publicId fromId)) })
    else (.notFound, s)

/-- `DELETE /v1/friends/:id`: unfriend. -/
def unfriend (s : State) (callerEmail friendId : String) : Outcome × State :=
  match findUserByEmail s.users callerEmail with
  | none => (.unauthorized, s)
  | some me =>
    if friendId == me.publicId then (.invalid, s)
    else
      (.ok,
        { s with users :=
            (updateUser (updateUser s.users me.publicId (pullFriend friendId))
              friendId (pullFriend me.publicId)) })

/-- `POST /v1/avoids`: record the exclusion, nothing else. -/
def avoid (s : State) (callerEmail avoidId : String) : Outcome × State :=
  match findUserByEmail s.users callerEmail with
  | none => (.unauthorized, s)
  | some me =>
    if avoidId == me.publicId then (.invalid, s)
    else
      match findUser s.users avoidId with
      | none => (.notFound, s)
      | some _ =>
        (.ok, { s with users := updateUser s.users me.publicId (addAvoided avoidId) })

/-- `DELETE /v1/avoids/:id`. -/
def unavoid (s : State) (callerEmail avoidId : String) : Outcome × State :=
  match findUserByEmail s.users callerEmail with
  | none => (.unauthorized, s)
  | some me =>
    (.ok, { s with users := updateUser s.users me.publicId (pullAvoided avoidId) })

/-- Profile projection returned by `GET /v1/users/:id`. -/
structure Profile where
  id : String
  dogName : String
  dogPicture : String
  isAvoided : Bool
deriving DecidableEq

/-- `encodeDogPicture` restricted to string-valued pictures: a non-empty string
passes through, and the empty string maps to the empty string, so the function
is the identity on the string case of the source. -/
def encodeDogPicture (value : String) : String := value

/-- Result of `GET /v1/users/:id`. -/
inductive ProfileRes
  | unauthorized
  | notFound
  | ok (p : Profile)
deriving DecidableEq

/-- `GET /v1/users/:id`: project a user for a viewer. -/
def getUser (s : State) (callerEmail userId : String) : ProfileRes :=
  match findUserByEmail s.users callerEmail with
  | none => .unauthorized
  | some me =>
    match findUser s.users userId with
    | none => .notFound
    | some u => .ok ⟨u.publicId, u.dogName, encodeDogPicture u.dogPicture, isAvoided me u.publicId⟩

/-- Erase every user's `avoided` list, leaving all other fields alone. -/
def clearAvoided (u : User) : User := { u with avoided := [] }

/-- A state with all `avoided` lists emptied. -/
def eraseAvoided (s : State) : State := { s with users := s.users.map clearAvoided }

/-- Invariant of §3 of the spec for this variant: a user's own `publicId`
appears in neither its own `friends` nor its own `avoided` list. -/
def SelfOk (s : State) : Prop :=
  ∀ u ∈ s.users, u.publicId ∉ u.friends ∧ u.publicId ∉ u.avoided

instance (s : State) : Decidable (SelfOk s) :=
  inferInstanceAs (Decidable (∀ u ∈ s.users, _ ∧ _))

end AvoidV

/-- A block-variant state with 52 registered users where 51 of them have each
sent a pending request to user `ub`; exercises the unpaginated listing route. -/
def bigState : BlockV.State :=
  { users := { email := "b", publicId := "ub", dogName := "rex", dogPicture := "",
               friends := [], blocked := [], createdAt := 0 } ::
             (List.range 51).map (fun i =>
               { email := "e" ++ Nat.repr i, publicId := Nat.repr i, dogName := "d",
                 dogPicture := "", friends := [], blocked := [], createdAt := 0 }),
    requests := (List.range 51).map (fun i => { fromId := Nat.repr i, toId := "ub", createdAt := i }) }

/-- Two freshly registered block-variant users, used to instantiate theorems. -/
def uA : BlockV.User := ⟨"a", "ua", "ra", "", [], [], 0⟩

/-- Second block-variant user. -/
def uB : BlockV.User := ⟨"b", "ub", "rb", "", [], [], 0⟩

/-- Block-variant state with the two users and no pending requests. -/
def s0 : BlockV.State := ⟨[uA, uB], []⟩

/-- Two freshly registered avoid-variant users, used to instantiate theorems. -/
def vA : AvoidV.User := ⟨"a", "ua", "ra", "", [], [], 0⟩

/-- Second avoid-variant user. -/
def vB : AvoidV.User := ⟨"b", "ub", "rb", "", [], [], 0⟩

/-- Avoid-variant state with the two users and no pending requests. -/
def aS0 : AvoidV.State := ⟨[vA, vB], []⟩

/-! ### Generic list lemmas -/

/-- `find?` commutes with a map that preserves the predicate. -/
theorem find?_map_pred {α : Type} (g : α → α) (p : α → Bool)
    (h : ∀ a, p (g a) = p a) (l : List α) : (l.map g).find? p = (l.find? p).map g := by
  induction l with
  | nil => rfl
  | cons x xs ih =>
    simp only [List.map_cons, List.find?]
    rw [h x]
    cases hp : p x <;> simp [ih]

/-- Erasing the first match empties the matches when there was at most one. -/
theorem eraseP_filter_of_le_one {α : Type} (p : α → Bool) (l : List α)
    (h : (l.filter p).length ≤ 1) : (l.eraseP p).filter p = [] := by
  induction l with
  | nil => rfl
  | cons x xs ih =>
    cases hp : p x with
    | true =>
      have he : (x :: xs).eraseP p = xs := by simp [List.eraseP_cons, hp]
      have hf : (x :: xs).filter p = x :: xs.filter p := by simp [List.filter_cons, hp]
      rw [hf, List.length_cons] at h
      have h0 : (xs.filter p).length = 0 := by omega
      rw [he]
      exact List.length_eq_zero.mp h0
    | false =>
      have he : (x :: xs).eraseP p = x :: xs.eraseP p := by simp [List.eraseP_cons, hp]
      have hf : (x :: xs).filter p = xs.filter p := by simp [List.filter_cons, hp]
      rw [hf] at h
      rw [he]
      simpa [List.filter_cons, hp] using ih h

/-- Erasing by a predicate disjoint from `p` leaves the `p`-filter unchanged. -/
theorem filter_eraseP_disjoint {α : Type} (p q : α → Bool) (l : List α)
    (h : ∀ a, q a = true → p a = false) : (l.eraseP q).filter p = l.filter p := by
  induction l with
  | nil => rfl
  | cons x xs ih =>
    cases hq : q x with
    | true =>
      have he : (x :: xs).eraseP q = xs := by simp [List.eraseP_cons, hq]
      rw [he]
      simp [List.filter_cons, h x hq]
    | false =>
      have he : (x :: xs).eraseP q = x :: xs.eraseP q := by simp [List.eraseP_cons, hq]
      rw [he]
      cases hp : p x with
      | true => simp [List.filter_cons, hp, ih]
      | false => simp [List.filter_cons, hp, ih]

/-- Erasing the first `p`-match never removes a non-`p` element. -/
theorem filter_not_eraseP {α : Type} (p : α → Bool) (l : List α) :
    (l.eraseP p).filter (fun a => !p a) = l.filter (fun a => !p a) :=
  filter_eraseP_disjoint _ p l (fun a ha => by simp [ha])

/-- Under a pairwise-distinct key, `find?` on a member's key returns that member. -/
theorem find?_key_unique {α : Type} (key : α → String) {l : List α}
    (hl : l.Pairwise (fun u v => key u ≠ key v)) {a : α} (ha : a ∈ l) :
    l.find? (fun u => key u == key a) = some a := by
  induction l with
  | nil => cases ha
  | cons x xs ih =>
    rcases List.mem_cons.mp ha with rfl | hmem
    · simp [List.find?]
    · have hx : key x ≠ key a := (List.pairwise_cons.mp hl).1 a hmem
      have : (key x == key a) = false := by
        simp [hx]
      simp only [List.find?, this]
      exact ih hl.of_cons hmem

/-- Membership after a MongoDB `$addToSet`. -/
theorem mem_addToSet {l : List String} {v x : String} :
    x ∈ addToSet l v ↔ (x ∈ l ∨ x = v) := by
  unfold addToSet
  by_cases hv : v ∈ l
  · rw [if_pos (List.elem_iff.mpr hv)]
    constructor
    · exact Or.inl
    · rintro (h | rfl)
      · exact h
      · exact hv
  · rw [if_neg (fun hc => hv (List.elem_iff.mp hc))]
    simp [List.mem_append]

/-- Membership after a MongoDB `$pull`. -/
theorem mem_pullAll {l : List String} {v x : String} :
    x ∈ pullAll l v ↔ (x ∈ l ∧ x ≠ v) := by
  unfold pullAll
  simp [List.mem_filter]

/-- The compound unique index bounds every `(from, to)` filter by one document. -/
theorem reqUnique_filter_le_one {reqs : List FriendRequest} (h : ReqUnique reqs)
    (f t : String) : (reqs.filter (isPair f t)).length ≤ 1 := by
  induction reqs with
  | nil => simp
  | cons x xs ih =>
    have hx := (List.pairwise_cons.mp h).1
    have hxs := h.of_cons
    cases hp : isPair f t x with
    | true =>
      have hid : x.fromId = f ∧ x.toId = t := by
        have := hp
        unfold isPair at this
        simpa using this
      have hnil : xs.filter (isPair f t) = [] := by
        apply List.filter_eq_nil_iff.mpr
        intro b hb hpb
        have hbid : b.fromId = f ∧ b.toId = t := by
          unfold isPair at hpb
          simpa using hpb
        rcases hx b hb with hne | hne
        · exact hne (hid.1.trans hbid.1.symm)
        · exact hne (hid.2.trans hbid.2.symm)
      simp [List.filter_cons, hp, hnil]
    | false =>
      simpa [List.filter_cons, hp] using ih hxs

/-- Two ordered pairs with different `from` coordinates match disjoint documents. -/
theorem isPair_disjoint_from {f t f2 t2 : String} (h : f ≠ f2) :
    ∀ r, isPair f2 t2 r = true → isPair f t r = false := by
  intro r hr
  unfold isPair at hr ⊢
  have hr' : r.fromId = f2 ∧ r.toId = t2 := by simpa using hr
  have hne : (r.fromId == f) = false := by
    rw [hr'.1]
    exact beq_eq_false_iff_ne.mpr (Ne.symm h)
  simp [hne]

/-! ### Block-variant structural lemmas -/

namespace BlockV

/-- Looking a user up by `publicId` after an update sees the updated document. -/
theorem findUser_updateUser (users : List User) (pid : String) (f : User → User)
    (hf : ∀ u, (f u).publicId = u.publicId) (q : String) :
    findUser (updateUser users pid f) q
      = (findUser users q).map (fun u => if u.publicId == pid then f u else u) := by
  unfold findUser updateUser
  apply find?_map_pred
  intro a
  by_cases h : a.publicId = pid
  · simp [h, hf]
  · simp [h]

/-- Looking a user up by email after an update sees the updated document. -/
theorem findUserByEmail_updateUser (users : List User) (pid : String) (f : User → User)
    (hf : ∀ u, (f u).email = u.email) (e : String) :
    findUserByEmail (updateUser users pid f) e
      = (findUserByEmail users e).map (fun u => if u.publicId == pid then f u else u) := by
  unfold findUserByEmail updateUser
  apply find?_map_pred
  intro a
  by_cases h : a.publicId = pid
  · simp [h, hf]
  · simp [h]

/-- With the unique `publicId` index, looking up a member's id finds it. -/
theorem findUser_of_mem {users : List User} (hUU : UsersUnique users) {a : User}
    (ha : a ∈ users) : findUser users a.publicId = some a :=
  find?_key_unique User.publicId hUU ha

/-- Everything that must have held when the create handler answered `ok`. -/
theorem createRequest_ok_elim {s : State} {ea t : String} {now : Nat} {me : User} {s1 : State}
    (hme : findUserByEmail s.users ea = some me)
    (hC : createRequest s ea t now = (.ok, s1)) :
    (t == me.publicId) = false ∧ ∃ target, findUser s.users t = some target ∧
      isBlocked me target = false ∧ me.friends.contains target.publicId = false ∧
      s.requests.any (isPair me.publicId target.publicId) = false ∧
      s1 = { s with requests := s.requests ++ [⟨me.publicId, target.publicId, now⟩] } := by
  unfold createRequest at hC
  simp only [hme] at hC
  split at hC
  · simp at hC
  next hself =>
    have hself' : (t == me.publicId) = false := by simpa using hself
    split at hC
    · simp at hC
    next target hfind =>
      split at hC
      · simp at hC
      next hb =>
        have hb' : isBlocked me target = false := by simpa using hb
        split at hC
        · simp at hC
        next hfr =>
          have hfr' : me.friends.contains target.publicId = false := by simpa using hfr
          split at hC
          · simp at hC
          next hdup =>
            have hdup' : s.requests.any (isPair me.publicId target.publicId) = false := by
              simpa using hdup
            have hs1 := congrArg Prod.snd hC
            exact ⟨hself', target, hfind, hb', hfr', hdup', by simpa using hs1.symm⟩

/-- The create handler answers `ok` when every guard passes. -/
theorem createRequest_ok_intro {s : State} {ea t : String} {now : Nat} {me target : User}
    (hme : findUserByEmail s.users ea = some me)
    (hself : (t == me.publicId) = false)
    (hfind : findUser s.users t = some target)
    (hb : isBlocked me target = false)
    (hfr : me.friends.contains target.publicId = false)
    (hdup : s.requests.any (isPair me.publicId target.publicId) = false) :
    createRequest s ea t now =
      (.ok, { s with requests := s.requests ++ [⟨me.publicId, target.publicId, now⟩] }) := by
  have hfr' : target.publicId ∉ me.friends := by simpa using hfr
  unfold createRequest
  simp only [hme]
  simp [hself, hfind, hb, hfr', hdup]

/-- Everything that must have held when the approve handler answered `ok`. -/
theorem approve_ok_elim {s : State} {ea f : String} {me : User} {s2 : State}
    (hme : findUserByEmail s.users ea = some me)
    (hA : approve s ea f = (.ok, s2)) :
    (f == me.publicId) = false ∧ s.requests.any (isPair f me.publicId) = true ∧
      ∃ other, findUser s.users f = some other ∧ isBlocked me other = false ∧
      s2 = { users :=
               (updateUser (updateUser s.users me.publicId (addFriend other.publicId))
                 other.publicId (addFriend me.publicId)),
             requests :=
               ((s.requests.eraseP (isPair f me.publicId)).eraseP
                 (isPair me.publicId f)) } := by
  unfold approve at hA
  simp only [hme] at hA
  split at hA
  · simp at hA
  next hself =>
    have hself' : (f == me.publicId) = false := by simpa using hself
    split at hA
    next hany =>
      split at hA
      · simp at hA
      next other hfind =>
        split at hA
        · simp at hA
        next hb =>
          have hb' : isBlocked me other = false := by simpa using hb
          have hs2 := congrArg Prod.snd hA
          exact ⟨hself', hany, other, hfind, hb', by simpa using hs2.symm⟩
    next hany => simp at hA

/-- The approve handler answers `ok` when every guard passes. -/
theorem approve_ok_intro {s : State} {ea f : String} {me other : User}
    (hme : findUserByEmail s.users ea = some me)
    (hself : (f == me.publicId) = false)
    (hany : s.requests.any (isPair f me.publicId) = true)
    (hfind : findUser s.users f = some other)
    (hb : isBlocked me other = false) :
    approve s ea f =
      (.ok, { users :=
                (updateUser (updateUser s.users me.publicId (addFriend other.publicId))
                  other.publicId (addFriend me.publicId)),
              requests :=
                ((s.requests.eraseP (isPair f me.publicId)).eraseP
                  (isPair me.publicId f)) }) := by
  unfold approve
  simp only [hme]
  simp [hself, hany, hfind, hb]

end BlockV

/-! ### C1: create then approve yields symmetric friendship and no leftover requests -/

namespace BlockV

/-- C1: for distinct registered users A and B, a successful `Create(A,B)`
followed by a successful `Approve(B,A)` leaves B's publicId in A's friends,
A's publicId in B's friends, and no FriendRequest for either ordered pair
`(A,B)` or `(B,A)` — both the approved request and any reverse request are
gone.  The `UsersUnique`/`ReqUnique` hypotheses embed the two unique indexes
the service creates on startup. -/
theorem create_approve_establishes_friendship
    (s s1 s2 : State) (ea eb : String) (A B : User) (now : Nat)
    (hA : findUserByEmail s.users ea = some A)
    (hB : findUserByEmail s.users eb = some B)
    (hUU : UsersUnique s.users)
    (hRU : ReqUnique s.requests)
    (hC : createRequest s ea B.publicId now = (.ok, s1))
    (hAp : approve s1 eb A.publicId = (.ok, s2)) :
    B.publicId ∈ friendsOf s2 A.publicId ∧
    A.publicId ∈ friendsOf s2 B.publicId ∧
    s2.requests.filter (isPair A.publicId B.publicId) = [] ∧
    s2.requests.filter (isPair B.publicId A.publicId) = [] := by
  obtain ⟨hself, target, hfind, hb, hfr, hdup, hs1⟩ := createRequest_ok_elim hA hC
  have hBmem : B ∈ s.users := List.mem_of_find?_eq_some hB
  have hAmem : A ∈ s.users := List.mem_of_find?_eq_some hA
  have hfindB : findUser s.users B.publicId = some B := findUser_of_mem hUU hBmem
  have hfindA : findUser s.users A.publicId = some A := findUser_of_mem hUU hAmem
  have htarget : B = target := by
    rw [hfindB] at hfind
    exact Option.some.inj hfind
  subst htarget
  have hABne : A.publicId ≠ B.publicId := Ne.symm (beq_eq_false_iff_ne.mp hself)
  subst hs1
  have hB1 : findUserByEmail
      ({ users := s.users,
         requests := s.requests ++ [⟨A.publicId, B.publicId, now⟩] } : State).users eb
      = some B := hB
  obtain ⟨hself2, hany2, other, hfind2, hb2, hs2⟩ := approve_ok_elim hB1 hAp
  have hother : A = other := by
    have h2 : findUser s.users A.publicId = some other := hfind2
    rw [hfindA] at h2
    exact Option.some.inj h2
  subst hother
  subst hs2
  have hfuB1 : findUser (updateUser s.users B.publicId (addFriend A.publicId)) B.publicId
      = some (addFriend A.publicId B) := by
    rw [findUser_updateUser s.users B.publicId (addFriend A.publicId) (fun u => rfl) B.publicId,
      hfindB]
    simp [addFriend]
  have hfuA1 : findUser (updateUser s.users B.publicId (addFriend A.publicId)) A.publicId
      = some A := by
    rw [findUser_updateUser s.users B.publicId (addFriend A.publicId) (fun u => rfl) A.publicId,
      hfindA]
    simp [hABne]
  have hfuB2 : findUser
      (updateUser (updateUser s.users B.publicId (addFriend A.publicId))
        A.publicId (addFriend B.publicId)) B.publicId
      = some (addFriend A.publicId B) := by
    rw [findUser_updateUser (updateUser s.users B.publicId (addFriend A.publicId))
      A.publicId (addFriend B.publicId) (fun u => rfl) B.publicId, hfuB1]
    simp [addFriend, Ne.symm hABne]
  have hfuA2 : findUser
      (updateUser (updateUser s.users B.publicId (addFriend A.publicId))
        A.publicId (addFriend B.publicId)) A.publicId
      = some (addFriend B.publicId A) := by
    rw [findUser_updateUser (updateUser s.users B.publicId (addFriend A.publicId))
      A.publicId (addFriend B.publicId) (fun u => rfl) A.publicId, hfuA1]
    simp [addFriend]
  have hfilAB_s : s.requests.filter (isPair A.publicId B.publicId) = [] :=
    List.filter_eq_nil_iff.mpr (List.any_eq_false.mp hdup)
  have hfilAB_s1 :
      (s.requests ++ [({ fromId := A.publicId, toId := B.publicId, createdAt := now } : FriendRequest)]).filter
          (isPair A.publicId B.publicId)
        = [{ fromId := A.publicId, toId := B.publicId, createdAt := now }] := by
    rw [List.filter_append, hfilAB_s]
    simp [isPair]
  have hlenAB :
      ((s.requests ++ [({ fromId := A.publicId, toId := B.publicId, createdAt := now } : FriendRequest)]).filter
        (isPair A.publicId B.publicId)).length ≤ 1 := by
    rw [hfilAB_s1]
    simp
  have hfilBA_s1 :
      (s.requests ++ [({ fromId := A.publicId, toId := B.publicId, createdAt := now } : FriendRequest)]).filter
          (isPair B.publicId A.publicId)
        = s.requests.filter (isPair B.publicId A.publicId) := by
    rw [List.filter_append]
    simp [isPair, beq_eq_false_iff_ne.mpr hABne]
  have hlenBA :
      ((s.requests ++ [({ fromId := A.publicId, toId := B.publicId, createdAt := now } : FriendRequest)]).filter
        (isPair B.publicId A.publicId)).length ≤ 1 := by
    rw [hfilBA_s1]
    exact reqUnique_filter_le_one hRU _ _
  refine ⟨?_, ?_, ?_, ?_⟩
  · unfold friendsOf
    rw [hfuA2]
    simp [addFriend, mem_addToSet]
  · unfold friendsOf
    rw [hfuB2]
    simp [addFriend, mem_addToSet]
  · rw [filter_eraseP_disjoint _ _ _ (isPair_disjoint_from hABne)]
    exact eraseP_filter_of_le_one _ _ hlenAB
  · apply eraseP_filter_of_le_one
    rw [filter_eraseP_disjoint _ _ _ (isPair_disjoint_from (Ne.symm hABne))]
    exact hlenBA

end BlockV

/-- C1 witness: run the scenario on the two concrete users. -/
theorem create_approve_establishes_friendship_witness :
    "ub" ∈ BlockV.friendsOf ⟨[⟨"a", "ua", "ra", "", ["ub"], [], 0⟩,
                              ⟨"b", "ub", "rb", "", ["ua"], [], 0⟩], []⟩ "ua" ∧
    "ua" ∈ BlockV.friendsOf ⟨[⟨"a", "ua", "ra", "", ["ub"], [], 0⟩,
                              ⟨"b", "ub", "rb", "", ["ua"], [], 0⟩], []⟩ "ub" ∧
    List.filter (isPair "ua" "ub") ([] : List FriendRequest) = [] ∧
    List.filter (isPair "ub" "ua") ([] : List FriendRequest) = [] :=
  BlockV.create_approve_establishes_friendship s0
    ⟨[uA, uB], [⟨"ua", "ub", 1⟩]⟩
    ⟨[⟨"a", "ua", "ra", "", ["ub"], [], 0⟩, ⟨"b", "ub", "rb", "", ["ua"], [], 0⟩], []⟩
    "a" "b" uA uB 1
    (by decide) (by decide) (by decide) (by decide) (by decide) (by decide)

/-! ### C2: a second identical create is rejected as a duplicate -/

namespace BlockV

/-- The create handler answers `duplicate` when only the uniqueness check fires. -/
theorem createRequest_duplicate_intro {s : State} {ea t : String} {now : Nat} {me target : User}
    (hme : findUserByEmail s.users ea = some me)
    (hself : (t == me.publicId) = false)
    (hfind : findUser s.users t = some target)
    (hb : isBlocked me target = false)
    (hfr : me.friends.contains target.publicId = false)
    (hdup : s.requests.any (isPair me.publicId target.publicId) = true) :
    createRequest s ea t now = (.duplicate, s) := by
  have hfr' : target.publicId ∉ me.friends := by simpa using hfr
  unfold createRequest
  simp only [hme]
  simp [hself, hfind, hb, hfr', hdup]

/-- C2: after a successful `Create(A,B)`, an identical `Create(A,B)` fails with
`DuplicateRequest` (the uniqueness constraint rejects the insert) and the state
is unchanged, so no second request record is created. -/
theorem duplicate_create_rejected
    (s s1 : State) (ea t : String) (now now2 : Nat) (me : User)
    (hme : findUserByEmail s.users ea = some me)
    (hC : createRequest s ea t now = (.ok, s1)) :
    createRequest s1 ea t now2 = (.duplicate, s1) := by
  obtain ⟨hself, target, hfind, hb, hfr, hdup, hs1⟩ := createRequest_ok_elim hme hC
  subst hs1
  have hany : (s.requests ++
      [({ fromId := me.publicId, toId := target.publicId, createdAt := now } : FriendRequest)]).any
      (isPair me.publicId target.publicId) = true := by
    simp [isPair]
  exact createRequest_duplicate_intro hme hself hfind hb hfr hany

end BlockV

/-- C2 witness: the duplicate scenario on the two concrete users. -/
theorem duplicate_create_rejected_witness :
    BlockV.createRequest ⟨[uA, uB], [⟨"ua", "ub", 1⟩]⟩ "a" "ub" 2
      = (.duplicate, ⟨[uA, uB], [⟨"ua", "ub", 1⟩]⟩) :=
  BlockV.duplicate_create_rejected s0 ⟨[uA, uB], [⟨"ua", "ub", 1⟩]⟩ "a" "ub" 1 2 uA
    (by decide) (by decide)

/-! ### C3: requests in both directions may coexist -/

namespace BlockV

/-- C3: for distinct, mutually non-excluding, non-friend users, `Create(A,B)`
then `Create(B,A)` both succeed — the handler never inspects the reverse
direction, so the two FriendRequest rows coexist. -/
theorem reverse_requests_coexist
    (s s1 : State) (ea eb : String) (A B : User) (n1 n2 : Nat)
    (hA : findUserByEmail s.users ea = some A)
    (hB : findUserByEmail s.users eb = some B)
    (hUU : UsersUnique s.users)
    (hBfr : B.friends.contains A.publicId = false)
    (hnoRev : s.requests.any (isPair B.publicId A.publicId) = false)
    (hC : createRequest s ea B.publicId n1 = (.ok, s1)) :
    ∃ s2, createRequest s1 eb A.publicId n2 = (.ok, s2) ∧
      s2.requests.any (isPair A.publicId B.publicId) = true ∧
      s2.requests.any (isPair B.publicId A.publicId) = true := by
  obtain ⟨hself, target, hfind, hb, hfr, hdup, hs1⟩ := createRequest_ok_elim hA hC
  have hBmem : B ∈ s.users := List.mem_of_find?_eq_some hB
  have hAmem : A ∈ s.users := List.mem_of_find?_eq_some hA
  have hfindB : findUser s.users B.publicId = some B := findUser_of_mem hUU hBmem
  have hfindA : findUser s.users A.publicId = some A := findUser_of_mem hUU hAmem
  have htarget : B = target := by
    rw [hfindB] at hfind
    exact Option.some.inj hfind
  subst htarget
  have hABne : A.publicId ≠ B.publicId := Ne.symm (beq_eq_false_iff_ne.mp hself)
  subst hs1
  have hb2 : isBlocked B A = false := by
    unfold isBlocked at hb ⊢
    rw [Bool.or_comm]
    exact hb
  have hself2 : (A.publicId == B.publicId) = false := beq_eq_false_iff_ne.mpr hABne
  have hdup2 : (s.requests ++
      [({ fromId := A.publicId, toId := B.publicId, createdAt := n1 } : FriendRequest)]).any
      (isPair B.publicId A.publicId) = false := by
    simp only [List.any_append, hnoRev, Bool.false_or]
    simp [isPair, beq_eq_false_iff_ne.mpr hABne]
  refine ⟨_, createRequest_ok_intro hB hself2 hfindA hb2 hBfr hdup2, ?_, ?_⟩
  · simp [isPair]
  · simp [isPair]

end BlockV

/-- C3 witness: both directions created on the two concrete users. -/
theorem reverse_requests_coexist_witness :
    ∃ s2, BlockV.createRequest ⟨[uA, uB], [⟨"ua", "ub", 1⟩]⟩ "b" "ua" 2 = (.ok, s2) ∧
      s2.requests.any (isPair "ua" "ub") = true ∧
      s2.requests.any (isPair "ub" "ua") = true :=
  BlockV.reverse_requests_coexist s0 ⟨[uA, uB], [⟨"ua", "ub", 1⟩]⟩ "a" "b" uA uB 1 2
    (by decide) (by decide) (by decide) (by decide) (by decide) (by decide)

/-! ### C4: mutual-block exclusion is symmetric and reversible -/

namespace BlockV

/-- C4: when B's publicId sits in A's `blocked` list, `Create(A,B)` and
`Create(B,A)` both fail with `Excluded`, whichever side holds the entry; and
once A unblocks B (no other exclusion, not friends, no pending duplicate),
`Create(A,B)` succeeds again. -/
theorem block_symmetric_excludes_create
    (s : State) (ea eb : String) (A B : User) (now : Nat)
    (hA : findUserByEmail s.users ea = some A)
    (hB : findUserByEmail s.users eb = some B)
    (hUU : UsersUnique s.users)
    (hne : A.publicId ≠ B.publicId)
    (hblk : B.publicId ∈ A.blocked)
    (hrev : A.publicId ∉ B.blocked)
    (hAfr : B.publicId ∉ A.friends)
    (hnoReq : s.requests.any (isPair A.publicId B.publicId) = false) :
    (createRequest s ea B.publicId now).1 = .excluded ∧
    (createRequest s eb A.publicId now).1 = .excluded ∧
    ∃ s2, createRequest (unblock s ea B.publicId).2 ea B.publicId now = (.ok, s2) := by
  have hBmem : B ∈ s.users := List.mem_of_find?_eq_some hB
  have hAmem : A ∈ s.users := List.mem_of_find?_eq_some hA
  have hfindB : findUser s.users B.publicId = some B := findUser_of_mem hUU hBmem
  have hfindA : findUser s.users A.publicId = some A := findUser_of_mem hUU hAmem
  have hcont : A.blocked.contains B.publicId = true := List.elem_iff.mpr hblk
  have hblAB : isBlocked A B = true := by
    unfold isBlocked
    simp
    exact Or.inl hblk
  have hblBA : isBlocked B A = true := by
    unfold isBlocked
    simp
    exact Or.inr hblk
  refine ⟨?_, ?_, ?_⟩
  · have h1 : createRequest s ea B.publicId now = (.excluded, s) := by
      unfold createRequest
      simp only [hA]
      simp [beq_eq_false_iff_ne.mpr (Ne.symm hne), hfindB, hblAB]
    rw [h1]
  · have h2 : createRequest s eb A.publicId now = (.excluded, s) := by
      unfold createRequest
      simp only [hB]
      simp [beq_eq_false_iff_ne.mpr hne, hfindA, hblBA]
    rw [h2]
  · have hunb : (unblock s ea B.publicId).2
        = { s with users := updateUser s.users A.publicId (pullBlocked B.publicId) } := by
      unfold unblock
      simp only [hA]
    rw [hunb]
    have hA' : findUserByEmail (updateUser s.users A.publicId (pullBlocked B.publicId)) ea
        = some (pullBlocked B.publicId A) := by
      rw [findUserByEmail_updateUser s.users A.publicId (pullBlocked B.publicId)
        (fun u => rfl) ea, hA]
      simp
    have hfindB' : findUser (updateUser s.users A.publicId (pullBlocked B.publicId)) B.publicId
        = some B := by
      rw [findUser_updateUser s.users A.publicId (pullBlocked B.publicId)
        (fun u => rfl) B.publicId, hfindB]
      simp [Ne.symm hne]
    have hbl' : isBlocked (pullBlocked B.publicId A) B = false := by
      unfold isBlocked
      simp [pullBlocked]
      exact ⟨fun hc => (mem_pullAll.mp hc).2 rfl, hrev⟩
    have hfr' : (pullBlocked B.publicId A).friends.contains B.publicId = false :=
      Bool.eq_false_iff.mpr (fun hc => hAfr (List.elem_iff.mp hc))
    have hself' : (B.publicId == (pullBlocked B.publicId A).publicId) = false :=
      beq_eq_false_iff_ne.mpr (Ne.symm hne)
    exact ⟨_, createRequest_ok_intro hA' hself' hfindB' hbl' hfr' hnoReq⟩

end BlockV

/-- C4 witness: a state where user a has blocked user b. -/
theorem block_symmetric_excludes_create_witness :
    (BlockV.createRequest ⟨[⟨"a", "ua", "ra", "", [], ["ub"], 0⟩, uB], []⟩ "a" "ub" 5).1
      = .excluded ∧
    (BlockV.createRequest ⟨[⟨"a", "ua", "ra", "", [], ["ub"], 0⟩, uB], []⟩ "b" "ua" 5).1
      = .excluded ∧
    ∃ s2, BlockV.createRequest
        (BlockV.unblock ⟨[⟨"a", "ua", "ra", "", [], ["ub"], 0⟩, uB], []⟩ "a" "ub").2
        "a" "ub" 5 = (.ok, s2) :=
  BlockV.block_symmetric_excludes_create
    ⟨[⟨"a", "ua", "ra", "", [], ["ub"], 0⟩, uB], []⟩ "a" "b"
    ⟨"a", "ua", "ra", "", [], ["ub"], 0⟩ uB 5
    (by decide) (by decide) (by decide) (by decide) (by decide) (by decide) (by decide)
    (by decide)

/-! ### C7: unfriend is idempotent -/

namespace BlockV

/-- Updating the targeted document is visible through a `publicId` lookup. -/
theorem findUser_update_hit {users : List User} {pid : String} {F : User → User} {q : String}
    {u : User} (hf : ∀ w, (F w).publicId = w.publicId)
    (hq : findUser users q = some u) (hpid : u.publicId = pid) :
    findUser (updateUser users pid F) q = some (F u) := by
  rw [findUser_updateUser users pid F hf q, hq]
  simp [hpid]

/-- Updating a different document is invisible through a `publicId` lookup. -/
theorem findUser_update_miss {users : List User} {pid : String} {F : User → User} {q : String}
    {u : User} (hf : ∀ w, (F w).publicId = w.publicId)
    (hq : findUser users q = some u) (hpid : u.publicId ≠ pid) :
    findUser (updateUser users pid F) q = some u := by
  rw [findUser_updateUser users pid F hf q, hq]
  simp [hpid]

/-- An update cannot make an absent `publicId` appear. -/
theorem findUser_update_none {users : List User} {pid : String} {F : User → User} {q : String}
    (hf : ∀ w, (F w).publicId = w.publicId)
    (hq : findUser users q = none) :
    findUser (updateUser users pid F) q = none := by
  rw [findUser_updateUser users pid F hf q, hq]
  rfl

/-- C7: for a target distinct from the caller, two consecutive unfriend calls
both succeed — even if the two were never friends — and afterwards neither
user's `friends` list contains the other's publicId; the handler answers
`InvalidRequest` exactly when the target equals the caller. -/
theorem unfriend_idempotent
    (s : State) (ea f : String) (me : User)
    (hme : findUserByEmail s.users ea = some me)
    (hne : f ≠ me.publicId) :
    ∃ s1 s2, unfriend s ea f = (.ok, s1) ∧ unfriend s1 ea f = (.ok, s2) ∧
      f ∉ friendsOf s2 me.publicId ∧ me.publicId ∉ friendsOf s2 f ∧
      ∀ g, (unfriend s ea g).1 = .invalid ↔ g = me.publicId := by
  have hself : (f == me.publicId) = false := beq_eq_false_iff_ne.mpr hne
  have h1 : unfriend s ea f =
      (.ok, { s with users :=
        (updateUser (updateUser s.users me.publicId (pullFriend f))
          f (pullFriend me.publicId)) }) := by
    unfold unfriend
    simp only [hme]
    simp [hself]
  have hA1 : findUserByEmail (updateUser s.users me.publicId (pullFriend f)) ea
      = some (pullFriend f me) := by
    rw [findUserByEmail_updateUser s.users me.publicId (pullFriend f) (fun u => rfl) ea, hme]
    simp
  have hA2 : findUserByEmail
      (updateUser (updateUser s.users me.publicId (pullFriend f)) f (pullFriend me.publicId)) ea
      = some (pullFriend f me) := by
    rw [findUserByEmail_updateUser (updateUser s.users me.publicId (pullFriend f))
      f (pullFriend me.publicId) (fun u => rfl) ea, hA1]
    simp [pullFriend, Ne.symm hne]
  have hself2 : (f == (pullFriend f me).publicId) = false := hself
  have h2 : unfriend
      ({ s with users :=
        (updateUser (updateUser s.users me.publicId (pullFriend f))
          f (pullFriend me.publicId)) }) ea f =
      (.ok, { s with users :=
        (updateUser
          (updateUser
            (updateUser (updateUser s.users me.publicId (pullFriend f)) f (pullFriend me.publicId))
            me.publicId (pullFriend f))
          f (pullFriend me.publicId)) }) := by
    unfold unfriend
    simp only [hA2]
    simp [pullFriend, hself]
  refine ⟨_, _, h1, h2, ?_, ?_, ?_⟩
  · cases h0 : findUser s.users me.publicId with
    | none =>
      have hc1 := @findUser_update_none s.users me.publicId (pullFriend f) _ (fun w => rfl) h0
      have hc2 := @findUser_update_none _ f (pullFriend me.publicId) _ (fun w => rfl) hc1
      have hc3 := @findUser_update_none _ me.publicId (pullFriend f) _ (fun w => rfl) hc2
      have hc4 := @findUser_update_none _ f (pullFriend me.publicId) _ (fun w => rfl) hc3
      unfold friendsOf
      rw [hc4]
      simp
    | some u0 =>
      have hpid0 : u0.publicId = me.publicId := by
        have := List.find?_some h0
        simpa using this
      have hc1 : findUser (updateUser s.users me.publicId (pullFriend f)) me.publicId
          = some (pullFriend f u0) := findUser_update_hit (fun w => rfl) h0 hpid0
      have hc2 : findUser
          (updateUser (updateUser s.users me.publicId (pullFriend f)) f (pullFriend me.publicId))
          me.publicId = some (pullFriend f u0) :=
        findUser_update_miss (fun w => rfl) hc1 (by rw [show (pullFriend f u0).publicId = u0.publicId from rfl, hpid0]; exact Ne.symm hne)
      have hc3 : findUser
          (updateUser
            (updateUser (updateUser s.users me.publicId (pullFriend f)) f (pullFriend me.publicId))
            me.publicId (pullFriend f)) me.publicId
          = some (pullFriend f (pullFriend f u0)) :=
        findUser_update_hit (fun w => rfl) hc2 (by rw [show (pullFriend f u0).publicId = u0.publicId from rfl, hpid0])
      have hc4 : findUser
          (updateUser
            (updateUser
              (updateUser (updateUser s.users me.publicId (pullFriend f)) f (pullFriend me.publicId))
              me.publicId (pullFriend f))
            f (pullFriend me.publicId)) me.publicId
          = some (pullFriend f (pullFriend f u0)) :=
        findUser_update_miss (fun w => rfl) hc3 (by rw [show (pullFriend f (pullFriend f u0)).publicId = u0.publicId from rfl, hpid0]; exact Ne.symm hne)
      unfold friendsOf
      rw [hc4]
      intro hmem
      exact (mem_pullAll.mp (by simpa [pullFriend] using hmem)).2 rfl
  · cases h0 : findUser s.users f with
    | none =>
      have hc1 := @findUser_update_none s.users me.publicId (pullFriend f) _ (fun w => rfl) h0
      have hc2 := @findUser_update_none _ f (pullFriend me.publicId) _ (fun w => rfl) hc1
      have hc3 := @findUser_update_none _ me.publicId (pullFriend f) _ (fun w => rfl) hc2
      have hc4 := @findUser_update_none _ f (pullFriend me.publicId) _ (fun w => rfl) hc3
      unfold friendsOf
      rw [hc4]
      simp
    | some w0 =>
      have hpid0 : w0.publicId = f := by
        have := List.find?_some h0
        simpa using this
      have hc1 : findUser (updateUser s.users me.publicId (pullFriend f)) f = some w0 :=
        findUser_update_miss (fun w => rfl) h0 (by rw [hpid0]; exact hne)
      have hc2 : findUser
          (updateUser (updateUser s.users me.publicId (pullFriend f)) f (pullFriend me.publicId)) f
          = some (pullFriend me.publicId w0) :=
        findUser_update_hit (fun w => rfl) hc1 hpid0
      have hc3 : findUser
          (updateUser
            (updateUser (updateUser s.users me.publicId (pullFriend f)) f (pullFriend me.publicId))
            me.publicId (pullFriend f)) f
          = some (pullFriend me.publicId w0) :=
        findUser_update_miss (fun w => rfl) hc2 (by rw [show (pullFriend me.publicId w0).publicId = w0.publicId from rfl, hpid0]; exact hne)
      have hc4 : findUser
          (updateUser
            (updateUser
              (updateUser (updateUser s.users me.publicId (pullFriend f)) f (pullFriend me.publicId))
              me.publicId (pullFriend f))
            f (pullFriend me.publicId)) f
          = some (pullFriend me.publicId (pullFriend me.publicId w0)) :=
        findUser_update_hit (fun w => rfl) hc3 (by rw [show (pullFriend me.publicId w0).publicId = w0.publicId from rfl, hpid0])
      unfold friendsOf
      rw [hc4]
      intro hmem
      exact (mem_pullAll.mp (by simpa [pullFriend] using hmem)).2 rfl
  · intro g
    by_cases hg : g = me.publicId
    · have hInv : unfriend s ea me.publicId = (.invalid, s) := by
        unfold unfriend
        simp only [hme]
        simp
      simp [hg, hInv]
    · have : unfriend s ea g =
          (.ok, { s with users :=
            (updateUser (updateUser s.users me.publicId (pullFriend g))
              g (pullFriend me.publicId)) }) := by
        unfold unfriend
        simp only [hme]
        simp [beq_eq_false_iff_ne.mpr hg]
      simp [this, hg]

end BlockV

/-- C7 witness: two unfriends of user b by user a, starting not friends. -/
theorem unfriend_idempotent_witness :
    ∃ s1 s2, BlockV.unfriend s0 "a" "ub" = (.ok, s1) ∧
      BlockV.unfriend s1 "a" "ub" = (.ok, s2) ∧
      "ub" ∉ BlockV.friendsOf s2 "ua" ∧ "ua" ∉ BlockV.friendsOf s2 "ub" ∧
      ∀ g, (BlockV.unfriend s0 "a" g).1 = .invalid ↔ g = "ua" :=
  BlockV.unfriend_idempotent s0 "a" "ub" uA (by decide) (by decide)

/-! ### C8: reject deletes exactly the addressed request -/

namespace BlockV

/-- C8: `Reject(rejecter, from)` answers `NotFound` exactly when no request
`(from, rejecter)` exists and otherwise deletes exactly that request: the
users (hence every friends set) are untouched, no request for the pair
remains, every other request — in particular the reverse-direction pair
`(rejecter, from)` — survives unchanged. -/
theorem reject_deletes_exactly
    (s : State) (ea f : String) (me : User)
    (hme : findUserByEmail s.users ea = some me)
    (hRU : ReqUnique s.requests)
    (hne : f ≠ me.publicId) :
    ((reject s ea f).1 = .notFound ↔ s.requests.any (isPair f me.publicId) = false) ∧
    (s.requests.any (isPair f me.publicId) = false → reject s ea f = (.notFound, s)) ∧
    (s.requests.any (isPair f me.publicId) = true →
      ∃ s2, reject s ea f = (.ok, s2) ∧ s2.users = s.users ∧
        s2.requests.filter (isPair f me.publicId) = [] ∧
        s2.requests.filter (fun r => !(isPair f me.publicId r)) =
          s.requests.filter (fun r => !(isPair f me.publicId r)) ∧
        s2.requests.filter (isPair me.publicId f) = s.requests.filter (isPair me.publicId f)) := by
  cases hany : s.requests.any (isPair f me.publicId) with
  | false =>
    have hr : reject s ea f = (.notFound, s) := by
      unfold reject
      simp only [hme]
      simp [hany]
    exact ⟨by simp [hr, hany], fun _ => hr, fun hT => absurd hT (by simp [hany])⟩
  | true =>
    have hr : reject s ea f
        = (.ok, { s with requests := s.requests.eraseP (isPair f me.publicId) }) := by
      unfold reject
      simp only [hme]
      simp [hany]
    refine ⟨by simp [hr, hany], fun hF => absurd hF (by simp [hany]), fun _ => ?_⟩
    refine ⟨_, hr, rfl, ?_, ?_, ?_⟩
    · exact eraseP_filter_of_le_one _ _ (reqUnique_filter_le_one hRU f me.publicId)
    · exact filter_not_eraseP _ _
    · exact filter_eraseP_disjoint _ _ _ (isPair_disjoint_from (Ne.symm hne))

end BlockV

/-- C8 witness: a pending request from b to a, rejected by a. -/
theorem reject_deletes_exactly_witness :
    ((BlockV.reject ⟨[uA, uB], [⟨"ub", "ua", 3⟩]⟩ "a" "ub").1 = .notFound ↔
      ([⟨"ub", "ua", 3⟩] : List FriendRequest).any (isPair "ub" "ua") = false) ∧
    (([⟨"ub", "ua", 3⟩] : List FriendRequest).any (isPair "ub" "ua") = false →
      BlockV.reject ⟨[uA, uB], [⟨"ub", "ua", 3⟩]⟩ "a" "ub"
        = (.notFound, ⟨[uA, uB], [⟨"ub", "ua", 3⟩]⟩)) ∧
    (([⟨"ub", "ua", 3⟩] : List FriendRequest).any (isPair "ub" "ua") = true →
      ∃ s2, BlockV.reject ⟨[uA, uB], [⟨"ub", "ua", 3⟩]⟩ "a" "ub" = (.ok, s2) ∧
        s2.users = [uA, uB] ∧
        s2.requests.filter (isPair "ub" "ua") = [] ∧
        s2.requests.filter (fun r => !(isPair "ub" "ua" r)) =
          ([⟨"ub", "ua", 3⟩] : List FriendRequest).filter (fun r => !(isPair "ub" "ua" r)) ∧
        s2.requests.filter (isPair "ua" "ub") =
          ([⟨"ub", "ua", 3⟩] : List FriendRequest).filter (isPair "ua" "ub")) :=
  BlockV.reject_deletes_exactly ⟨[uA, uB], [⟨"ub", "ua", 3⟩]⟩ "a" "ub" uA
    (by decide) (by decide) (by decide)

/-! ### C10: blocking also severs friendship and pending requests -/

namespace BlockV

/-- C10: a successful block does more than record the exclusion — it removes
each user's publicId from the other's friends list and deletes any pending
request in both directions; it answers `NotFound` when the target publicId
does not exist. -/
theorem block_side_effects
    (s : State) (ea t : String) (me : User)
    (hme : findUserByEmail s.users ea = some me)
    (hne : t ≠ me.publicId)
    (hRU : ReqUnique s.requests) :
    (findUser s.users t = none → block s ea t = (.notFound, s)) ∧
    (∀ tu, findUser s.users t = some tu →
      ∃ s2, block s ea t = (.ok, s2) ∧
        t ∈ blockedOf s2 me.publicId ∧
        t ∉ friendsOf s2 me.publicId ∧
        me.publicId ∉ friendsOf s2 t ∧
        s2.requests.filter (isPair me.publicId t) = [] ∧
        s2.requests.filter (isPair t me.publicId) = []) := by
  have hself : (t == me.publicId) = false := beq_eq_false_iff_ne.mpr hne
  constructor
  · intro hnone
    unfold block
    simp only [hme]
    simp [hself, hnone]
  · intro tu htu
    have htupid : tu.publicId = t := by simpa using List.find?_some htu
    have hbl : block s ea t =
        (.ok, { users :=
                  (updateUser
                    (updateUser (updateUser s.users me.publicId (addBlocked t))
                      me.publicId (pullFriend t))
                    t (pullFriend me.publicId)),
                requests :=
                  ((s.requests.eraseP (isPair me.publicId t)).eraseP
                    (isPair t me.publicId)) }) := by
      unfold block
      simp only [hme]
      simp [hself, htu]
    have hmem : me ∈ s.users := List.mem_of_find?_eq_some hme
    have hsome : (s.users.find? (fun u => u.publicId == me.publicId)).isSome :=
      List.find?_isSome.mpr ⟨me, hmem, by simp⟩
    obtain ⟨u0, h0⟩ := Option.isSome_iff_exists.mp hsome
    have h0 : findUser s.users me.publicId = some u0 := h0
    have hpid0 : u0.publicId = me.publicId := by simpa using List.find?_some h0
    have c1 : findUser (updateUser s.users me.publicId (addBlocked t)) me.publicId
        = some (addBlocked t u0) := findUser_update_hit (fun w => rfl) h0 hpid0
    have c2 : findUser
        (updateUser (updateUser s.users me.publicId (addBlocked t)) me.publicId (pullFriend t))
        me.publicId = some (pullFriend t (addBlocked t u0)) :=
      findUser_update_hit (fun w => rfl) c1
        (by rw [show (addBlocked t u0).publicId = u0.publicId from rfl, hpid0])
    have c3 : findUser
        (updateUser
          (updateUser (updateUser s.users me.publicId (addBlocked t)) me.publicId (pullFriend t))
          t (pullFriend me.publicId)) me.publicId
        = some (pullFriend t (addBlocked t u0)) :=
      findUser_update_miss (fun w => rfl) c2
        (by rw [show (pullFriend t (addBlocked t u0)).publicId = u0.publicId from rfl, hpid0]
            exact Ne.symm hne)
    have d1 : findUser (updateUser s.users me.publicId (addBlocked t)) t = some tu :=
      findUser_update_miss (fun w => rfl) htu (by rw [htupid]; exact hne)
    have d2 : findUser
        (updateUser (updateUser s.users me.publicId (addBlocked t)) me.publicId (pullFriend t)) t
        = some tu :=
      findUser_update_miss (fun w => rfl) d1 (by rw [htupid]; exact hne)
    have d3 : findUser
        (updateUser
          (updateUser (updateUser s.users me.publicId (addBlocked t)) me.publicId (pullFriend t))
          t (pullFriend me.publicId)) t
        = some (pullFriend me.publicId tu) :=
      findUser_update_hit (fun w => rfl) d2 htupid
    refine ⟨_, hbl, ?_, ?_, ?_, ?_, ?_⟩
    · unfold blockedOf
      rw [c3]
      simp [pullFriend, addBlocked]
      exact mem_addToSet.mpr (Or.inr rfl)
    · unfold friendsOf
      rw [c3]
      intro hmem2
      exact (mem_pullAll.mp (by simpa [pullFriend, addBlocked] using hmem2)).2 rfl
    · unfold friendsOf
      rw [d3]
      intro hmem2
      exact (mem_pullAll.mp (by simpa [pullFriend] using hmem2)).2 rfl
    · rw [filter_eraseP_disjoint _ _ _ (isPair_disjoint_from (Ne.symm hne))]
      exact eraseP_filter_of_le_one _ _ (reqUnique_filter_le_one hRU me.publicId t)
    · apply eraseP_filter_of_le_one
      rw [filter_eraseP_disjoint _ _ _ (isPair_disjoint_from hne)]
      exact reqUnique_filter_le_one hRU t me.publicId

end BlockV

/-- C10 witness: friends with pending requests both ways, then a blocks b. -/
theorem block_side_effects_witness :
    (BlockV.findUser [⟨"a", "ua", "ra", "", ["ub"], [], 0⟩,
                      ⟨"b", "ub", "rb", "", ["ua"], [], 0⟩] "ub" = none →
      BlockV.block ⟨[⟨"a", "ua", "ra", "", ["ub"], [], 0⟩,
                     ⟨"b", "ub", "rb", "", ["ua"], [], 0⟩],
                    [⟨"ua", "ub", 1⟩, ⟨"ub", "ua", 2⟩]⟩ "a" "ub"
        = (.notFound, ⟨[⟨"a", "ua", "ra", "", ["ub"], [], 0⟩,
                        ⟨"b", "ub", "rb", "", ["ua"], [], 0⟩],
                       [⟨"ua", "ub", 1⟩, ⟨"ub", "ua", 2⟩]⟩)) ∧
    (∀ tu, BlockV.findUser [⟨"a", "ua", "ra", "", ["ub"], [], 0⟩,
                            ⟨"b", "ub", "rb", "", ["ua"], [], 0⟩] "ub" = some tu →
      ∃ s2, BlockV.block ⟨[⟨"a", "ua", "ra", "", ["ub"], [], 0⟩,
                           ⟨"b", "ub", "rb", "", ["ua"], [], 0⟩],
                          [⟨"ua", "ub", 1⟩, ⟨"ub", "ua", 2⟩]⟩ "a" "ub" = (.ok, s2) ∧
        "ub" ∈ BlockV.blockedOf s2 "ua" ∧
        "ub" ∉ BlockV.friendsOf s2 "ua" ∧
        "ua" ∉ BlockV.friendsOf s2 "ub" ∧
        s2.requests.filter (isPair "ua" "ub") = [] ∧
        s2.requests.filter (isPair "ub" "ua") = []) :=
  BlockV.block_side_effects
    ⟨[⟨"a", "ua", "ra", "", ["ub"], [], 0⟩, ⟨"b", "ub", "rb", "", ["ua"], [], 0⟩],
     [⟨"ua", "ub", 1⟩, ⟨"ub", "ua", 2⟩]⟩ "a" "ub"
    ⟨"a", "ua", "ra", "", ["ub"], [], 0⟩
    (by decide) (by decide) (by decide)

/-! ### C5: the avoid list never gates create; it only feeds the profile flag -/

namespace AvoidV

/-- C5: in the avoid variant, `Create` behaves exactly as if every `avoided`
list were empty — erasing all avoided lists commutes with the handler and
changes neither the outcome nor the request/friend state — and the only
place an exclusion entry surfaces is the per-viewer `isAvoided` flag of the
profile projection, which is true exactly when the viewer's own avoided list
contains the subject. -/
theorem create_ignores_avoided_flag_only
    (s : State) (ea t uid : String) (now : Nat) (me u : User)
    (hme : findUserByEmail s.users ea = some me)
    (hu : findUser s.users uid = some u) :
    createRequest (eraseAvoided s) ea t now
      = ((createRequest s ea t now).1, eraseAvoided (createRequest s ea t now).2) ∧
    getUser s ea uid
      = .ok ⟨u.publicId, u.dogName, encodeDogPicture u.dogPicture, isAvoided me u.publicId⟩ ∧
    (isAvoided me u.publicId = true ↔ u.publicId ∈ me.avoided) := by
  have hfe : ∀ e, findUserByEmail (eraseAvoided s).users e
      = (findUserByEmail s.users e).map clearAvoided := by
    intro e
    unfold eraseAvoided findUserByEmail
    exact find?_map_pred clearAvoided (fun w => w.email == normalizeEmail e) (fun a => rfl) s.users
  have hfu : ∀ q, findUser (List.map clearAvoided s.users) q
      = (findUser s.users q).map clearAvoided := by
    intro q
    unfold findUser
    exact find?_map_pred clearAvoided (fun w => w.publicId == q) (fun a => rfl) s.users
  refine ⟨?_, ?_, ?_⟩
  · unfold createRequest
    cases hme2 : findUserByEmail s.users ea with
    | none =>
      rw [hfe ea, hme2]
      rfl
    | some me2 =>
      rw [hfe ea, hme2]
      by_cases hself : t = me2.publicId
      · simp [clearAvoided, hself]
      · cases hfind : findUser s.users t with
        | none => simp [clearAvoided, eraseAvoided, hself, hfu, hfind]
        | some target =>
          by_cases hfr : target.publicId ∈ me2.friends
          · simp [clearAvoided, eraseAvoided, hself, hfu, hfind, hfr]
          · cases hdup : s.requests.any (isPair me2.publicId target.publicId) with
            | true =>
              have hdup' : ∃ x ∈ s.requests, isPair me2.publicId target.publicId x = true := by
                simpa using hdup
              simp [clearAvoided, eraseAvoided, hself, hfu, hfind, hfr, hdup']
            | false =>
              have hdup' : ¬ ∃ x ∈ s.requests, isPair me2.publicId target.publicId x = true := by
                simpa using hdup
              simp [clearAvoided, eraseAvoided, hself, hfu, hfind, hfr, hdup']
  · unfold getUser
    simp only [hme, hu]
  · unfold isAvoided
    exact List.elem_iff

end AvoidV

/-- C5 witness: user a avoids b; creating a request and viewing b's profile. -/
theorem create_ignores_avoided_flag_only_witness :
    AvoidV.createRequest
        (AvoidV.eraseAvoided ⟨[⟨"a", "ua", "ra", "", [], ["ub"], 0⟩, vB], []⟩) "a" "ub" 1
      = ((AvoidV.createRequest ⟨[⟨"a", "ua", "ra", "", [], ["ub"], 0⟩, vB], []⟩ "a" "ub" 1).1,
          AvoidV.eraseAvoided
            (AvoidV.createRequest ⟨[⟨"a", "ua", "ra", "", [], ["ub"], 0⟩, vB], []⟩ "a" "ub" 1).2) ∧
    AvoidV.getUser ⟨[⟨"a", "ua", "ra", "", [], ["ub"], 0⟩, vB], []⟩ "a" "ub"
      = .ok ⟨"ub", "rb", AvoidV.encodeDogPicture "", AvoidV.isAvoided ⟨"a", "ua", "ra", "", [], ["ub"], 0⟩ "ub"⟩ ∧
    (AvoidV.isAvoided ⟨"a", "ua", "ra", "", [], ["ub"], 0⟩ "ub" = true ↔
      "ub" ∈ (⟨"a", "ua", "ra", "", [], ["ub"], 0⟩ : AvoidV.User).avoided) :=
  AvoidV.create_ignores_avoided_flag_only
    ⟨[⟨"a", "ua", "ra", "", [], ["ub"], 0⟩, vB], []⟩ "a" "ub" "ub" 1
    ⟨"a", "ua", "ra", "", [], ["ub"], 0⟩ vB
    (by decide) (by decide)

/-! ### C6: listing pagination — avoid variant paginated, block variant not -/

/-- C6 counterexample: in the block variant, `GET /v1/friends/requests/incoming`
reads no pagination parameters at all — with 51 pending requests and no
parameters supplied it returns all 51 items, refuting the claimed default
`limit = 50` (and the claimed 1–200 bound). -/
theorem listIncoming_unpaginated_counterexample :
    ((BlockV.listIncoming bigState "b").getD []).length = 51 := by decide

/-- C6 amended: in the avoid variant, ListIncoming/ListOutgoing return the
caller's pending requests filtered by `toId`/`fromId`, sorted by `createdAt`
descending, paginated by `limit` in 1–200 and `offset` at least 0 with defaults
`(50, 0)` (out-of-range values are rejected); the block variant returns the
whole sorted, filtered list with no pagination.  `sortDesc` really sorts: its
output is descending and a permutation of its input. -/
theorem listings_pagination_spec
    (sA : AvoidV.State) (eA : String) (meA : AvoidV.User)
    (sB : BlockV.State) (eB : String) (meB : BlockV.User)
    (hA : AvoidV.findUserByEmail sA.users eA = some meA)
    (hB : BlockV.findUserByEmail sB.users eB = some meB) :
    (∀ lim off : Option Int,
      ((1 ≤ lim.getD 50 ∧ lim.getD 50 ≤ 200 ∧ 0 ≤ off.getD 0) →
        AvoidV.listIncoming sA eA lim off =
          .ok (((sortDesc (sA.requests.filter (fun r => r.toId == meA.publicId))).drop
            (off.getD 0).toNat).take (lim.getD 50).toNat) ∧
        AvoidV.listOutgoing sA eA lim off =
          .ok (((sortDesc (sA.requests.filter (fun r => r.fromId == meA.publicId))).drop
            (off.getD 0).toNat).take (lim.getD 50).toNat)) ∧
      (¬(1 ≤ lim.getD 50 ∧ lim.getD 50 ≤ 200 ∧ 0 ≤ off.getD 0) →
        AvoidV.listIncoming sA eA lim off = .badQuery ∧
        AvoidV.listOutgoing sA eA lim off = .badQuery)) ∧
    BlockV.listIncoming sB eB
      = some (sortDesc (sB.requests.filter (fun r => r.toId == meB.publicId))) ∧
    BlockV.listOutgoing sB eB
      = some (sortDesc (sB.requests.filter (fun r => r.fromId == meB.publicId))) ∧
    (∀ l : List FriendRequest, (sortDesc l).Pairwise reqGE ∧ (sortDesc l).Perm l) := by
  have hPB : ∀ (lim off : Option Int), AvoidV.parsePagination lim off
      = if 1 ≤ lim.getD 50 ∧ lim.getD 50 ≤ 200 ∧ 0 ≤ off.getD 0
        then some ((lim.getD 50).toNat, (off.getD 0).toNat) else none := by
    intro lim off
    unfold AvoidV.parsePagination
    by_cases h1 : 1 ≤ lim.getD 50 <;> by_cases h2 : lim.getD 50 ≤ 200 <;>
      by_cases h3 : 0 ≤ off.getD 0 <;> simp [h1, h2, h3]
  refine ⟨?_, ?_, ?_, ?_⟩
  · intro lim off
    constructor
    · intro hcond
      have e1 : AvoidV.parsePagination lim off
          = some ((lim.getD 50).toNat, (off.getD 0).toNat) := by
        rw [hPB lim off, if_pos hcond]
      constructor
      · unfold AvoidV.listIncoming
        simp only [hA, e1]
      · unfold AvoidV.listOutgoing
        simp only [hA, e1]
    · intro hncond
      have e1 : AvoidV.parsePagination lim off = none := by
        rw [hPB lim off, if_neg hncond]
      constructor
      · unfold AvoidV.listIncoming
        simp only [hA, e1]
      · unfold AvoidV.listOutgoing
        simp only [hA, e1]
  · unfold BlockV.listIncoming
    simp only [hB]
  · unfold BlockV.listOutgoing
    simp only [hB]
  · intro l
    exact ⟨List.sorted_insertionSort reqGE l, List.perm_insertionSort reqGE l⟩

/-- C6 witness: the two concrete base states. -/
theorem listings_pagination_spec_witness :
    (∀ lim off : Option Int,
      ((1 ≤ lim.getD 50 ∧ lim.getD 50 ≤ 200 ∧ 0 ≤ off.getD 0) →
        AvoidV.listIncoming aS0 "a" lim off =
          .ok (((sortDesc (aS0.requests.filter (fun r => r.toId == "ua"))).drop
            (off.getD 0).toNat).take (lim.getD 50).toNat) ∧
        AvoidV.listOutgoing aS0 "a" lim off =
          .ok (((sortDesc (aS0.requests.filter (fun r => r.fromId == "ua"))).drop
            (off.getD 0).toNat).take (lim.getD 50).toNat)) ∧
      (¬(1 ≤ lim.getD 50 ∧ lim.getD 50 ≤ 200 ∧ 0 ≤ off.getD 0) →
        AvoidV.listIncoming aS0 "a" lim off = .badQuery ∧
        AvoidV.listOutgoing aS0 "a" lim off = .badQuery)) ∧
    BlockV.listIncoming s0 "a"
      = some (sortDesc (s0.requests.filter (fun r => r.toId == "ua"))) ∧
    BlockV.listOutgoing s0 "a"
      = some (sortDesc (s0.requests.filter (fun r => r.fromId == "ua"))) ∧
    (∀ l : List FriendRequest, (sortDesc l).Pairwise reqGE ∧ (sortDesc l).Perm l) :=
  listings_pagination_spec aS0 "a" vA s0 "a" uA (by decide) (by decide)

/-! ### C9: no user ever holds its own publicId in friends or exclusions -/

namespace BlockV

/-- `updateUser` preserves the self-reference invariant when the update does. -/
theorem selfOk_updateUser {users : List User} {pid : String} {F : User → User}
    (hF : ∀ u, u.publicId = pid → (u.publicId ∉ u.friends ∧ u.publicId ∉ u.blocked) →
          ((F u).publicId ∉ (F u).friends ∧ (F u).publicId ∉ (F u).blocked))
    (h : ∀ u ∈ users, u.publicId ∉ u.friends ∧ u.publicId ∉ u.blocked) :
    ∀ u ∈ updateUser users pid F, u.publicId ∉ u.friends ∧ u.publicId ∉ u.blocked := by
  intro u hu
  unfold updateUser at hu
  obtain ⟨w, hw, rfl⟩ := List.mem_map.mp hu
  cases hb : (w.publicId == pid) with
  | true =>
    rw [if_pos rfl]
    exact hF w (by simpa using hb) (h w hw)
  | false =>
    rw [if_neg (by simp)]
    exact h w hw

/-- Adding a friend other than oneself preserves the invariant. -/
theorem selfOk_addFriend {u : User} {v : String} (hv : u.publicId ≠ v)
    (hinv : u.publicId ∉ u.friends ∧ u.publicId ∉ u.blocked) :
    (addFriend v u).publicId ∉ (addFriend v u).friends ∧
    (addFriend v u).publicId ∉ (addFriend v u).blocked := by
  refine ⟨?_, hinv.2⟩
  intro hmem
  rcases mem_addToSet.mp hmem with hm | he
  · exact hinv.1 hm
  · exact hv he

/-- Removing a friend preserves the invariant. -/
theorem selfOk_pullFriend {u : User} (v : String)
    (hinv : u.publicId ∉ u.friends ∧ u.publicId ∉ u.blocked) :
    (pullFriend v u).publicId ∉ (pullFriend v u).friends ∧
    (pullFriend v u).publicId ∉ (pullFriend v u).blocked :=
  ⟨fun hmem => hinv.1 (mem_pullAll.mp hmem).1, hinv.2⟩

/-- Blocking someone other than oneself preserves the invariant. -/
theorem selfOk_addBlocked {u : User} {v : String} (hv : u.publicId ≠ v)
    (hinv : u.publicId ∉ u.friends ∧ u.publicId ∉ u.blocked) :
    (addBlocked v u).publicId ∉ (addBlocked v u).friends ∧
    (addBlocked v u).publicId ∉ (addBlocked v u).blocked := by
  refine ⟨hinv.1, ?_⟩
  intro hmem
  rcases mem_addToSet.mp hmem with hm | he
  · exact hinv.2 hm
  · exact hv he

/-- Unblocking preserves the invariant. -/
theorem selfOk_pullBlocked {u : User} (v : String)
    (hinv : u.publicId ∉ u.friends ∧ u.publicId ∉ u.blocked) :
    (pullBlocked v u).publicId ∉ (pullBlocked v u).friends ∧
    (pullBlocked v u).publicId ∉ (pullBlocked v u).blocked :=
  ⟨hinv.1, fun hmem => hinv.2 (mem_pullAll.mp hmem).1⟩

/-- The create handler preserves the invariant (it never writes users). -/
theorem selfOk_createRequest (s : State) (ea t : String) (now : Nat)
    (h : SelfOk s) : SelfOk (createRequest s ea t now).2 := by
  unfold createRequest
  split
  · exact h
  · split
    · exact h
    · split
      · exact h
      · split
        · exact h
        · split
          · exact h
          · split
            · exact h
            · exact h

/-- The approve handler preserves the invariant. -/
theorem selfOk_approve (s : State) (ea f : String) (h : SelfOk s) :
    SelfOk (approve s ea f).2 := by
  unfold approve
  split
  · exact h
  next me hme =>
    split
    · exact h
    next hself =>
      split
      · split
        · exact h
        next other hfind =>
          split
          · exact h
          next hb =>
            have hfne : f ≠ me.publicId := by simpa using hself
            have hopid : other.publicId = f := by simpa using List.find?_some hfind
            refine selfOk_updateUser ?_ (selfOk_updateUser ?_ h)
            · intro u hupid hinv
              exact selfOk_addFriend (fun he => hfne ((hopid ▸ hupid ▸ he).symm ▸ rfl)) hinv
            · intro u hupid hinv
              exact selfOk_addFriend (fun he => hfne (hupid ▸ hopid ▸ he.symm)) hinv
      · exact h

/-- The reject handler preserves the invariant (it never writes users). -/
theorem selfOk_reject (s : State) (ea f : String) (h : SelfOk s) :
    SelfOk (reject s ea f).2 := by
  unfold reject
  split
  · exact h
  · split
    · exact h
    · exact h

/-- The cancel handler preserves the invariant (it never writes users). -/
theorem selfOk_cancel (s : State) (ea t : String) (h : SelfOk s) :
    SelfOk (cancel s ea t).2 := by
  unfold cancel
  split
  · exact h
  · split
    · exact h
    · exact h

/-- The unfriend handler preserves the invariant. -/
theorem selfOk_unfriend (s : State) (ea f : String) (h : SelfOk s) :
    SelfOk (unfriend s ea f).2 := by
  unfold unfriend
  split
  · exact h
  · split
    · exact h
    · exact selfOk_updateUser (fun u _ hinv => selfOk_pullFriend _ hinv)
        (selfOk_updateUser (fun u _ hinv => selfOk_pullFriend _ hinv) h)

/-- The block handler preserves the invariant. -/
theorem selfOk_block (s : State) (ea t : String) (h : SelfOk s) :
    SelfOk (block s ea t).2 := by
  unfold block
  split
  · exact h
  next me hme =>
    split
    · exact h
    next hself =>
      split
      · exact h
      next tu htu =>
        have htne : t ≠ me.publicId := by simpa using hself
        refine selfOk_updateUser (fun u _ hinv => selfOk_pullFriend _ hinv)
          (selfOk_updateUser (fun u _ hinv => selfOk_pullFriend _ hinv)
            (selfOk_updateUser ?_ h))
        intro u hupid hinv
        exact selfOk_addBlocked (fun he => htne (hupid ▸ he.symm)) hinv

/-- The unblock handler preserves the invariant. -/
theorem selfOk_unblock (s : State) (ea t : String) (h : SelfOk s) :
    SelfOk (unblock s ea t).2 := by
  unfold unblock
  split
  · exact h
  · exact selfOk_updateUser (fun u _ hinv => selfOk_pullBlocked _ hinv) h

end BlockV

namespace AvoidV

/-- `updateUser` preserves the self-reference invariant when the update does. -/
theorem selfOkA_updateUser {users : List User} {pid : String} {F : User → User}
    (hF : ∀ u, u.publicId = pid → (u.publicId ∉ u.friends ∧ u.publicId ∉ u.avoided) →
          ((F u).publicId ∉ (F u).friends ∧ (F u).publicId ∉ (F u).avoided))
    (h : ∀ u ∈ users, u.publicId ∉ u.friends ∧ u.publicId ∉ u.avoided) :
    ∀ u ∈ updateUser users pid F, u.publicId ∉ u.friends ∧ u.publicId ∉ u.avoided := by
  intro u hu
  unfold updateUser at hu
  obtain ⟨w, hw, rfl⟩ := List.mem_map.mp hu
  cases hb : (w.publicId == pid) with
  | true =>
    rw [if_pos rfl]
    exact hF w (by simpa using hb) (h w hw)
  | false =>
    rw [if_neg (by simp)]
    exact h w hw

/-- Adding a friend other than oneself preserves the invariant. -/
theorem selfOkA_addFriend {u : User} {v : String} (hv : u.publicId ≠ v)
    (hinv : u.publicId ∉ u.friends ∧ u.publicId ∉ u.avoided) :
    (addFriend v u).publicId ∉ (addFriend v u).friends ∧
    (addFriend v u).publicId ∉ (addFriend v u).avoided := by
  refine ⟨?_, hinv.2⟩
  intro hmem
  rcases mem_addToSet.mp hmem with hm | he
  · exact hinv.1 hm
  · exact hv he

/-- Removing a friend preserves the invariant. -/
theorem selfOkA_pullFriend {u : User} (v : String)
    (hinv : u.publicId ∉ u.friends ∧ u.publicId ∉ u.avoided) :
    (pullFriend v u).publicId ∉ (pullFriend v u).friends ∧
    (pullFriend v u).publicId ∉ (pullFriend v u).avoided :=
  ⟨fun hmem => hinv.1 (mem_pullAll.mp hmem).1, hinv.2⟩

/-- Avoiding someone other than oneself preserves the invariant. -/
theorem selfOkA_addAvoided {u : User} {v : String} (hv : u.publicId ≠ v)
    (hinv : u.publicId ∉ u.friends ∧ u.publicId ∉ u.avoided) :
    (addAvoided v u).publicId ∉ (addAvoided v u).friends ∧
    (addAvoided v u).publicId ∉ (addAvoided v u).avoided := by
  refine ⟨hinv.1, ?_⟩
  intro hmem
  rcases mem_addToSet.mp hmem with hm | he
  · exact hinv.2 hm
  · exact hv he

/-- Unavoiding preserves the invariant. -/
theorem selfOkA_pullAvoided {u : User} (v : String)
    (hinv : u.publicId ∉ u.friends ∧ u.publicId ∉ u.avoided) :
    (pullAvoided v u).publicId ∉ (pullAvoided v u).friends ∧
    (pullAvoided v u).publicId ∉ (pullAvoided v u).avoided :=
  ⟨hinv.1, fun hmem => hinv.2 (mem_pullAll.mp hmem).1⟩

/-- The create handler preserves the invariant (it never writes users). -/
theorem selfOkA_createRequest (s : State) (ea t : String) (now : Nat)
    (h : SelfOk s) : SelfOk (createRequest s ea t now).2 := by
  unfold createRequest
  split
  · exact h
  · split
    · exact h
    · split
      · exact h
      · split
        · exact h
        · split
          · exact h
          · exact h

/-- The approve handler preserves the invariant. -/
theorem selfOkA_approve (s : State) (ea f : String) (h : SelfOk s) :
    SelfOk (approve s ea f).2 := by
  unfold approve
  split
  · exact h
  next me hme =>
    split
    · exact h
    next hself =>
      split
      · split
        · exact h
        next other hfind =>
          have hfne : f ≠ me.publicId := by simpa using hself
          have hopid : other.publicId = f := by simpa using List.find?_some hfind
          refine selfOkA_updateUser ?_ (selfOkA_updateUser ?_ h)
          · intro u hupid hinv
            exact selfOkA_addFriend (fun he => hfne ((hopid ▸ hupid ▸ he).symm ▸ rfl)) hinv
          · intro u hupid hinv
            exact selfOkA_addFriend (fun he => hfne (hupid ▸ hopid ▸ he.symm)) hinv
      · exact h

/-- The unfriend handler preserves the invariant. -/
theorem selfOkA_unfriend (s : State) (ea f : String) (h : SelfOk s) :
    SelfOk (unfriend s ea f).2 := by
  unfold unfriend
  split
  · exact h
  · split
    · exact h
    · exact selfOkA_updateUser (fun u _ hinv => selfOkA_pullFriend _ hinv)
        (selfOkA_updateUser (fun u _ hinv => selfOkA_pullFriend _ hinv) h)

/-- The avoid handler preserves the invariant. -/
theorem selfOkA_avoid (s : State) (ea t : String) (h : SelfOk s) :
    SelfOk (avoid s ea t).2 := by
  unfold avoid
  split
  · exact h
  next me hme =>
    split
    · exact h
    next hself =>
      split
      · exact h
      next tu htu =>
        have htne : t ≠ me.publicId := by simpa using hself
        refine selfOkA_updateUser ?_ h
        intro u hupid hinv
        exact selfOkA_addAvoided (fun he => htne (hupid ▸ he.symm)) hinv

/-- The unavoid handler preserves the invariant. -/
theorem selfOkA_unavoid (s : State) (ea t : String) (h : SelfOk s) :
    SelfOk (unavoid s ea t).2 := by
  unfold unavoid
  split
  · exact h
  · exact selfOkA_updateUser (fun u _ hinv => selfOkA_pullAvoided _ hinv) h

end AvoidV

/-- C9: every mutating operation of both variants preserves the invariant that
no user's own publicId appears in its own friends list or its own exclusion
(`blocked` / `avoided`) list: the self-reference guards fire before any write,
approve only adds the counterpart's id, and removals only shrink the lists. -/
theorem self_reference_invariant_preserved
    (sB : BlockV.State) (sA : AvoidV.State) (e t : String) (now : Nat)
    (hB : BlockV.SelfOk sB) (hA : AvoidV.SelfOk sA) :
    BlockV.SelfOk (BlockV.createRequest sB e t now).2 ∧
    BlockV.SelfOk (BlockV.approve sB e t).2 ∧
    BlockV.SelfOk (BlockV.reject sB e t).2 ∧
    BlockV.SelfOk (BlockV.cancel sB e t).2 ∧
    BlockV.SelfOk (BlockV.unfriend sB e t).2 ∧
    BlockV.SelfOk (BlockV.block sB e t).2 ∧
    BlockV.SelfOk (BlockV.unblock sB e t).2 ∧
    AvoidV.SelfOk (AvoidV.createRequest sA e t now).2 ∧
    AvoidV.SelfOk (AvoidV.approve sA e t).2 ∧
    AvoidV.SelfOk (AvoidV.unfriend sA e t).2 ∧
    AvoidV.SelfOk (AvoidV.avoid sA e t).2 ∧
    AvoidV.SelfOk (AvoidV.unavoid sA e t).2 :=
  ⟨BlockV.selfOk_createRequest sB e t now hB,
   BlockV.selfOk_approve sB e t hB,
   BlockV.selfOk_reject sB e t hB,
   BlockV.selfOk_cancel sB e t hB,
   BlockV.selfOk_unfriend sB e t hB,
   BlockV.selfOk_block sB e t hB,
   BlockV.selfOk_unblock sB e t hB,
   AvoidV.selfOkA_createRequest sA e t now hA,
   AvoidV.selfOkA_approve sA e t hA,
   AvoidV.selfOkA_unfriend sA e t hA,
   AvoidV.selfOkA_avoid sA e t hA,
   AvoidV.selfOkA_unavoid sA e t hA⟩

/-- C9 witness: the invariant survives every operation on the concrete states. -/
theorem self_reference_invariant_preserved_witness :
    BlockV.SelfOk (BlockV.createRequest s0 "a" "ub" 1).2 ∧
    BlockV.SelfOk (BlockV.approve s0 "a" "ub").2 ∧
    BlockV.SelfOk (BlockV.reject s0 "a" "ub").2 ∧
    BlockV.SelfOk (BlockV.cancel s0 "a" "ub").2 ∧
    BlockV.SelfOk (BlockV.unfriend s0 "a" "ub").2 ∧
    BlockV.SelfOk (BlockV.block s0 "a" "ub").2 ∧
    BlockV.SelfOk (BlockV.unblock s0 "a" "ub").2 ∧
    AvoidV.SelfOk (AvoidV.createRequest aS0 "a" "ub" 1).2 ∧
    AvoidV.SelfOk (AvoidV.approve aS0 "a" "ub").2 ∧
    AvoidV.SelfOk (AvoidV.unfriend aS0 "a" "ub").2 ∧
    AvoidV.SelfOk (AvoidV.avoid aS0 "a" "ub").2 ∧
    AvoidV.SelfOk (AvoidV.unavoid aS0 "a" "ub").2 :=
  self_reference_invariant_preserved s0 aS0 "a" "ub" 1 (by decide) (by decide)
